import Mathlib

/-!
Verification of the istio registry-sync reconciliation core against its
natural-language specification.  The Go data model is embedded shallowly:
Go maps become association lists, fallible remote calls become Except
values supplied by the caller, and the pollers and the synchronizer are
modelled as pure functions from their inputs to the list of calls they
issue.
-/

/-- Istio WorkloadEntry (the AddressRecord of the spec): one reachable
endpoint, an address plus a map from protocol name to port number.  The Go
field `Ports map[string]uint32` is modelled as an association list. -/
structure v1alpha3.WorkloadEntry where
  address : String
  ports : List (String × Nat)
deriving DecidableEq, Repr

/-- Istio ServicePort: a port descriptor of a ServiceEntry. -/
structure v1alpha3.ServicePort where
  number : Nat
  name : String
  protocol : String
deriving DecidableEq, Repr

/-- Istio ServiceEntry_Resolution enumeration. -/
inductive v1alpha3.ServiceEntryResolution where
  | NONE
  | STATIC
  | DNS
deriving DecidableEq, Repr

/-- Split a character list at every occurrence of a separator, the
character-level rendering of Go strings.Split. -/
def splitOnChar (sep : Char) : List Char → List (List Char)
  | [] => [[]]
  | c :: rest =>
    match splitOnChar sep rest with
    | [] => if c = sep then [[], []] else [[c]]
    | p :: ps => if c = sep then [] :: p :: ps else (c :: p) :: ps

/-- Modelled from the spec: the infer package source file is absent from
src/ (only its test file is staged).  Checks one dotted-decimal octet:
one to three digits whose value is at most 255, approximating the
octet acceptance of Go net.ParseIP. -/
def infer.validOctet (cs : List Char) : Bool :=
  0 < cs.length && cs.length ≤ 3 && cs.all Char.isDigit &&
    cs.foldl (fun n c => n * 10 + (c.toNat - 48)) 0 ≤ 255

/-- Modelled from the spec: dotted-quad IPv4 literal check. -/
def infer.isIPv4 (s : String) : Bool :=
  let parts := splitOnChar '.' s.data
  parts.length == 4 && parts.all infer.validOctet

/-- Modelled from the spec: rough IPv6 literal check (a colon is present
and every character is a hex digit, a colon or a dot). -/
def infer.isIPv6 (s : String) : Bool :=
  s.data.contains ':' &&
    s.data.all (fun c =>
      c.isDigit || ('a' ≤ c && c ≤ 'f') || ('A' ≤ c && c ≤ 'F') || c = ':' || c = '.')

/-- Modelled from the spec: a syntactically valid IP literal, standing in
for Go net.ParseIP returning non-nil. -/
def infer.validIP (s : String) : Bool :=
  infer.isIPv4 s || infer.isIPv6 s

/-- Modelled from the spec: infer.Proto maps 80 to http, 443 to https and
every other port to tcp (its test file TestProto pins these values). -/
def infer.Proto (port : Nat) : String :=
  if port = 80 then "http" else if port = 443 then "https" else "tcp"

/-- Modelled from the spec: infer.WorkloadEntry builds an AddressRecord
from an address and a port; a zero port (Go uint32, so the "port at most
zero" convention of the spec) yields the default two-port map. -/
def infer.WorkloadEntry (address : String) (port : Nat) : v1alpha3.WorkloadEntry :=
  if port = 0 then { address := address, ports := [("http", 80), ("https", 443)] }
  else { address := address, ports := [(infer.Proto port, port)] }

/-- Modelled from the spec: infer.Resolution scans the records; any
address that is not a valid IP literal forces DNS, an empty or nil set
defaults to DNS, otherwise STATIC. -/
def infer.Resolution (wes : List v1alpha3.WorkloadEntry) : v1alpha3.ServiceEntryResolution :=
  if wes.any (fun we => !(infer.validIP we.address)) then .DNS
  else if wes.isEmpty then .DNS
  else .STATIC

/-- Modelled from the spec: append a (number, protocol) pair unless it was
already collected. -/
def infer.addPortPair (acc : List (Nat × String)) (p : Nat × String) : List (Nat × String) :=
  if p ∈ acc then acc else acc ++ [p]

/-- Modelled from the spec: the deduplicated union of (port-number,
protocol-name) pairs across the records, in first-seen order. -/
def infer.portPairs (wes : List v1alpha3.WorkloadEntry) : List (Nat × String) :=
  wes.foldl (fun acc we => we.ports.foldl (fun a kv => infer.addPortPair a (kv.2, kv.1)) acc) []

/-- Modelled from the spec: upper-case a protocol name character by
character, standing in for Go strings.ToUpper on ASCII protocol names. -/
def infer.upper (s : String) : String :=
  ⟨s.data.map Char.toUpper⟩

/-- Modelled from the spec: infer.Ports turns each collected pair into a
ServicePort whose protocol field is the protocol name upper-cased. -/
def infer.Ports (wes : List v1alpha3.WorkloadEntry) : List v1alpha3.ServicePort :=
  (infer.portPairs wes).map (fun p => { number := p.1, name := p.2, protocol := infer.upper p.2 })

/-- Modelled from the spec: the object naming convention, backend prefix
concatenated directly with the host string. -/
def infer.ServiceEntryName (pfx host : String) : String :=
  pfx ++ host

/-- C6: infer.Resolution returns STATIC exactly when the record list is
non-empty and every address is a syntactically valid IP literal, and DNS
exactly when the list is empty or some address is not a valid IP literal
(so mixed IP/hostname sets yield DNS); being total it never fails. -/
theorem c6_resolution_mode (wes : List v1alpha3.WorkloadEntry) :
    (infer.Resolution wes = .STATIC ↔
      wes ≠ [] ∧ ∀ we ∈ wes, infer.validIP we.address = true) ∧
    (infer.Resolution wes = .DNS ↔
      wes = [] ∨ ∃ we ∈ wes, infer.validIP we.address = false) := by
  by_cases hany : wes.any (fun we => !(infer.validIP we.address)) = true
  · obtain ⟨we, hmem, hwe⟩ := List.any_eq_true.mp hany
    have hfalse : infer.validIP we.address = false := by simpa using hwe
    have hres : infer.Resolution wes = .DNS := by
      unfold infer.Resolution; rw [if_pos hany]
    refine ⟨⟨fun h => ?_, fun h => ?_⟩,
            ⟨fun _ => Or.inr ⟨we, hmem, hfalse⟩, fun _ => hres⟩⟩
    · rw [hres] at h; cases h
    · obtain ⟨-, hall⟩ := h
      rw [hall we hmem] at hfalse; cases hfalse
  · have hall : ∀ we ∈ wes, infer.validIP we.address = true := by
      intro we hmem
      by_contra hne
      exact hany (List.any_eq_true.mpr ⟨we, hmem, by simp [Bool.eq_false_iff.mpr hne]⟩)
    by_cases hemp : wes = []
    · subst hemp
      have hres : infer.Resolution [] = .DNS := rfl
      refine ⟨⟨fun h => ?_, fun h => absurd rfl h.1⟩,
              ⟨fun _ => Or.inl rfl, fun _ => hres⟩⟩
      rw [hres] at h; cases h
    · have hres : infer.Resolution wes = .STATIC := by
        unfold infer.Resolution
        rw [if_neg hany, if_neg (fun h => hemp (List.isEmpty_iff.mp h))]
      refine ⟨⟨fun _ => ⟨hemp, hall⟩, fun _ => hres⟩, ⟨fun h => ?_, fun h => ?_⟩⟩
      · rw [hres] at h; cases h
      · rcases h with h | ⟨we, hmem, hfalse⟩
        · exact absurd h hemp
        · rw [hall we hmem] at hfalse; cases hfalse

/-- C7: infer.WorkloadEntry keeps the given address and labels the single
port with infer.Proto (http for 80, https for 443, tcp otherwise); when
the port is zero (the Go uint32 rendering of "port at most zero") it
produces the two-port record http:80, https:443 instead; being total it
never fails. -/
theorem c7_build_address_record (address : String) (port : Nat) :
    (infer.WorkloadEntry address port).address = address ∧
    (port = 0 →
      (infer.WorkloadEntry address port).ports = [("http", 80), ("https", 443)]) ∧
    (0 < port →
      (infer.WorkloadEntry address port).ports = [(infer.Proto port, port)]) ∧
    infer.Proto 80 = "http" ∧
    infer.Proto 443 = "https" ∧
    (port ≠ 80 → port ≠ 443 → infer.Proto port = "tcp") := by
  refine ⟨?_, ?_, ?_, rfl, rfl, ?_⟩
  · unfold infer.WorkloadEntry
    by_cases h : port = 0 <;> simp [h]
  · intro h
    simp [infer.WorkloadEntry, h]
  · intro h
    simp [infer.WorkloadEntry, Nat.pos_iff_ne_zero.mp h]
  · intro h80 h443
    simp [infer.Proto, h80, h443]

/-- C7 witness: the three pinned examples of the spec evaluated through
c7_build_address_record. -/
theorem c7_build_address_record_witness :
    (infer.WorkloadEntry "1.1.1.1" 0).ports = [("http", 80), ("https", 443)] ∧
    (infer.WorkloadEntry "1.1.1.1" 80).ports = [(infer.Proto 80, 80)] ∧
    infer.Proto 1234 = "tcp" :=
  ⟨(c7_build_address_record "1.1.1.1" 0).2.1 rfl,
   (c7_build_address_record "1.1.1.1" 80).2.2.1 (by decide),
   (c7_build_address_record "1.1.1.1" 1234).2.2.2.2.2 (by decide) (by decide)⟩

/-- Membership through one conditional append of a port pair. -/
theorem infer.mem_addPortPair (acc : List (Nat × String)) (p x : Nat × String) :
    x ∈ infer.addPortPair acc p ↔ x ∈ acc ∨ x = p := by
  unfold infer.addPortPair
  by_cases h : p ∈ acc
  · rw [if_pos h]
    exact ⟨Or.inl, fun hx => by rcases hx with hx | rfl; exact hx; exact h⟩
  · rw [if_neg h]
    simp

/-- Membership through the fold collecting the pairs of one record. -/
theorem infer.mem_foldl_addPortPair (ps : List (String × Nat)) :
    ∀ (acc : List (Nat × String)) (x : Nat × String),
      x ∈ ps.foldl (fun a kv => infer.addPortPair a (kv.2, kv.1)) acc ↔
        x ∈ acc ∨ ∃ kv ∈ ps, x = (kv.2, kv.1) := by
  induction ps with
  | nil => intro acc x; simp
  | cons kv ps ih =>
    intro acc x
    rw [List.foldl_cons, ih, infer.mem_addPortPair]
    simp only [List.mem_cons]
    constructor
    · rintro ((hx | rfl) | ⟨kv2, hkv2, rfl⟩)
      · exact Or.inl hx
      · exact Or.inr ⟨kv, Or.inl rfl, rfl⟩
      · exact Or.inr ⟨kv2, Or.inr hkv2, rfl⟩
    · rintro (hx | ⟨kv2, (rfl | hkv2), rfl⟩)
      · exact Or.inl (Or.inl hx)
      · exact Or.inl (Or.inr rfl)
      · exact Or.inr ⟨kv2, hkv2, rfl⟩

/-- Membership through the outer fold over all records. -/
theorem infer.mem_portPairs_aux (wes : List v1alpha3.WorkloadEntry) :
    ∀ (acc : List (Nat × String)) (x : Nat × String),
      x ∈ wes.foldl
          (fun acc we => we.ports.foldl (fun a kv => infer.addPortPair a (kv.2, kv.1)) acc) acc ↔
        x ∈ acc ∨ ∃ we ∈ wes, ∃ kv ∈ we.ports, x = (kv.2, kv.1) := by
  induction wes with
  | nil => intro acc x; simp
  | cons we wes ih =>
    intro acc x
    rw [List.foldl_cons, ih, infer.mem_foldl_addPortPair]
    simp only [List.mem_cons]
    constructor
    · rintro ((hx | ⟨kv, hkv, rfl⟩) | ⟨we2, hwe2, hrest⟩)
      · exact Or.inl hx
      · exact Or.inr ⟨we, Or.inl rfl, kv, hkv, rfl⟩
      · exact Or.inr ⟨we2, Or.inr hwe2, hrest⟩
    · rintro (hx | ⟨we2, (rfl | hwe2), hrest⟩)
      · exact Or.inl (Or.inl hx)
      · exact Or.inl (Or.inr hrest)
      · exact Or.inr ⟨we2, hwe2, hrest⟩

/-- Characterization of the collected port pairs. -/
theorem infer.mem_portPairs (wes : List v1alpha3.WorkloadEntry) (x : Nat × String) :
    x ∈ infer.portPairs wes ↔ ∃ we ∈ wes, ∃ kv ∈ we.ports, x = (kv.2, kv.1) := by
  unfold infer.portPairs
  rw [infer.mem_portPairs_aux]
  simp

/-- Conditional append preserves freedom from duplicates. -/
theorem infer.nodup_addPortPair (acc : List (Nat × String)) (p : Nat × String)
    (h : acc.Nodup) : (infer.addPortPair acc p).Nodup := by
  unfold infer.addPortPair
  by_cases hp : p ∈ acc
  · rwa [if_pos hp]
  · rw [if_neg hp]
    simpa [List.concat_eq_append] using h.concat hp

/-- The inner fold preserves freedom from duplicates. -/
theorem infer.nodup_foldl_addPortPair (ps : List (String × Nat)) :
    ∀ acc : List (Nat × String), acc.Nodup →
      (ps.foldl (fun a kv => infer.addPortPair a (kv.2, kv.1)) acc).Nodup := by
  induction ps with
  | nil => intro acc h; simpa using h
  | cons kv ps ih =>
    intro acc h
    rw [List.foldl_cons]
    exact ih _ (infer.nodup_addPortPair _ _ h)

/-- The collected port pairs carry no duplicate pair. -/
theorem infer.nodup_portPairs (wes : List v1alpha3.WorkloadEntry) :
    (infer.portPairs wes).Nodup := by
  unfold infer.portPairs
  suffices h : ∀ acc : List (Nat × String), acc.Nodup →
      (wes.foldl
        (fun acc we => we.ports.foldl (fun a kv => infer.addPortPair a (kv.2, kv.1)) acc)
        acc).Nodup from h [] List.nodup_nil
  induction wes with
  | nil => intro acc h; simpa using h
  | cons we wes ih =>
    intro acc h
    rw [List.foldl_cons]
    exact ih _ (infer.nodup_foldl_addPortPair _ _ h)

/-- C8: infer.Ports is the union of the (port-number, protocol-name)
pairs found in the records, deduplicated by the pair, every descriptor
carrying the protocol name upper-cased in its protocol field; as a set
the result depends only on which pairs occur, not on record order or on
how many records carry the same pair. -/
theorem c8_port_list (wes : List v1alpha3.WorkloadEntry) :
    (∀ d, d ∈ infer.Ports wes ↔
      ∃ we ∈ wes, ∃ kv ∈ we.ports,
        d = { number := kv.2, name := kv.1, protocol := infer.upper kv.1 }) ∧
    (infer.Ports wes).Nodup ∧
    (∀ wes₂ : List v1alpha3.WorkloadEntry,
      (∀ kv : String × Nat, (∃ we ∈ wes, kv ∈ we.ports) ↔ (∃ we ∈ wes₂, kv ∈ we.ports)) →
      ∀ d, (d ∈ infer.Ports wes ↔ d ∈ infer.Ports wes₂)) := by
  have hmem : ∀ (l : List v1alpha3.WorkloadEntry) (d : v1alpha3.ServicePort),
      d ∈ infer.Ports l ↔
        ∃ we ∈ l, ∃ kv ∈ we.ports,
          d = { number := kv.2, name := kv.1, protocol := infer.upper kv.1 } := by
    intro l d
    unfold infer.Ports
    rw [List.mem_map]
    constructor
    · rintro ⟨pp, hpp, rfl⟩
      obtain ⟨we, hwe, kv, hkv, rfl⟩ := (infer.mem_portPairs l pp).mp hpp
      exact ⟨we, hwe, kv, hkv, rfl⟩
    · rintro ⟨we, hwe, kv, hkv, rfl⟩
      exact ⟨(kv.2, kv.1), (infer.mem_portPairs l _).mpr ⟨we, hwe, kv, hkv, rfl⟩, rfl⟩
  refine ⟨hmem wes, ?_, ?_⟩
  · unfold infer.Ports
    refine (infer.nodup_portPairs wes).map ?_
    intro p q h
    cases p; cases q
    simp only [v1alpha3.ServicePort.mk.injEq] at h
    simp [h.1, h.2.1]
  · intro wes₂ hsame d
    rw [hmem wes, hmem wes₂]
    constructor
    · rintro ⟨we, hwe, kv, hkv, rfl⟩
      obtain ⟨we2, hwe2, hkv2⟩ := (hsame kv).mp ⟨we, hwe, hkv⟩
      exact ⟨we2, hwe2, kv, hkv2, rfl⟩
    · rintro ⟨we, hwe, kv, hkv, rfl⟩
      obtain ⟨we2, hwe2, hkv2⟩ := (hsame kv).mpr ⟨we, hwe, hkv⟩
      exact ⟨we2, hwe2, kv, hkv2, rfl⟩

/-- C8 witness: two records both exposing http:80 yield exactly the one
descriptor with number 80, name http, protocol HTTP. -/
theorem c8_port_list_witness :
    infer.Ports [⟨"1.1.1.1", [("http", 80)]⟩, ⟨"8.8.8.8", [("http", 80)]⟩] =
      [{ number := 80, name := "http", protocol := "HTTP" }] ∧
    ({ number := 80, name := "http", protocol := "HTTP" } : v1alpha3.ServicePort) ∈
      infer.Ports [⟨"1.1.1.1", [("http", 80)]⟩, ⟨"8.8.8.8", [("http", 80)]⟩] :=
  ⟨by decide,
   ((c8_port_list _).1 _).mpr
     ⟨⟨"1.1.1.1", [("http", 80)]⟩, by simp, ("http", 80), by simp, by decide⟩⟩

/-- Go map insertion (m[k] = v) on an association list: the new binding
shadows and drops any previous binding of the same key. -/
def putKV {α : Type} (l : List (String × α)) (k : String) (v : α) : List (String × α) :=
  (k, v) :: l.filter (fun kv => !(kv.1 == k))

/-- Dropping the bindings of one key leaves lookups of other keys alone. -/
theorem lookup_filter_ne {α : Type} (l : List (String × α)) (m n : String) (h : ¬n = m) :
    (l.filter (fun kv => !(kv.1 == m))).lookup n = l.lookup n := by
  induction l with
  | nil => rfl
  | cons a l ih =>
    by_cases ha : a.1 = m
    · have hn : (n == a.1) = false := by simp [ha, h]
      simp only [List.filter, ha]
      rw [List.lookup, hn]
      simpa using ih
    · have ha2 : (a.1 == m) = false := by simp [ha]
      simp only [List.filter, ha2, Bool.not_false]
      rcases a with ⟨k, v⟩
      by_cases hn : n = k
      · subst hn
        rw [List.lookup, List.lookup]
        simp
      · have hn2 : (n == k) = false := by simp [hn]
        rw [List.lookup, List.lookup, hn2]
        simpa using ih

/-- Lookup after a Go map insertion. -/
theorem lookup_putKV {α : Type} (l : List (String × α)) (k : String) (v : α) (n : String) :
    (putKV l k v).lookup n = if n = k then some v else l.lookup n := by
  unfold putKV
  by_cases hn : n = k
  · subst hn
    rw [List.lookup]
    simp
  · have hn2 : (n == k) = false := by simp [hn]
    rw [List.lookup, hn2, if_neg hn]
    exact lookup_filter_ne l k n hn

/-- Cloud Map instance summary: only its attribute map is read by the
watcher paths modelled here. -/
structure sdTypes.HttpInstanceSummary where
  attributes : List (String × String)
deriving DecidableEq, Repr

/-- Cloud Map namespace summary. -/
structure sdTypes.NamespaceSummary where
  id : String
  name : String
deriving DecidableEq, Repr

/-- Digits of a decimal numeral, or none when the text is not a non-empty
digit run: the core of Go strconv.Atoi. -/
def strconv.parseDigits (cs : List Char) : Option Nat :=
  if !cs.isEmpty && cs.all Char.isDigit then
    some (cs.foldl (fun n c => n * 10 + (c.toNat - 48)) 0)
  else none

/-- Go strconv.Atoi: an optional sign followed by digits. -/
def strconv.Atoi (s : String) : Option Int :=
  match s.data with
  | '-' :: rest => (strconv.parseDigits rest).map (fun n => -(n : Int))
  | '+' :: rest => (strconv.parseDigits rest).map (fun n => (n : Int))
  | cs => (strconv.parseDigits cs).map (fun n => (n : Int))

/-- Go uint32 conversion of an int: reduction modulo 2^32. -/
def uint32OfInt (i : Int) : Nat :=
  (i % (4294967296 : Int)).toNat

/-- cloudmap watcher instanceToWorkloadEntry: address from
AWS_INSTANCE_IPV4, else AWS_INSTANCE_CNAME, else skip; with a parsable
AWS_INSTANCE_PORT the record is built by infer.WorkloadEntry, otherwise
the default http:80, https:443 pair is assumed. -/
def cloudmap.instanceToWorkloadEntry (inst : sdTypes.HttpInstanceSummary) :
    Option v1alpha3.WorkloadEntry :=
  let address :=
    match inst.attributes.lookup "AWS_INSTANCE_IPV4" with
    | some ip => ip
    | none =>
      match inst.attributes.lookup "AWS_INSTANCE_CNAME" with
      | some cname => cname
      | none => ""
  if address = "" then none
  else
    match inst.attributes.lookup "AWS_INSTANCE_PORT" with
    | some port =>
      match strconv.Atoi port with
      | some p => some (infer.WorkloadEntry address (uint32OfInt p))
      | none => some { address := address, ports := [("http", 80), ("https", 443)] }
    | none => some { address := address, ports := [("http", 80), ("https", 443)] }

/-- cloudmap watcher instancesToWorkloadEntries: convert each instance,
keeping only the supported ones. -/
def cloudmap.instancesToWorkloadEntries (instances : List sdTypes.HttpInstanceSummary) :
    List v1alpha3.WorkloadEntry :=
  instances.filterMap cloudmap.instanceToWorkloadEntry

/-- cloudmap watcher workloadEntriesForService: the DiscoverInstances
result is supplied by the caller; a zero-instance answer gets one
synthesized host-based CNAME instance injected before conversion. -/
def cloudmap.workloadEntriesForService (svcName nsName : String)
    (disc : Except String (List sdTypes.HttpInstanceSummary)) :
    Except String (List v1alpha3.WorkloadEntry) :=
  match disc with
  | .error e => .error e
  | .ok instances =>
    let instances :=
      if instances.isEmpty then
        [{ attributes := [("AWS_INSTANCE_CNAME", svcName ++ "." ++ nsName)] }]
      else instances
    .ok (cloudmap.instancesToWorkloadEntries instances)

/-- cloudmap watcher hostsForNamespace inner loop over the listed service
names: build svcName.nsName keys, abort on the first conversion error. -/
def cloudmap.hostsLoop (nsName : String)
    (disc : String → Except String (List sdTypes.HttpInstanceSummary)) :
    List String → List (String × List v1alpha3.WorkloadEntry) →
      Except String (List (String × List v1alpha3.WorkloadEntry))
  | [], hosts => .ok hosts
  | svc :: rest, hosts =>
    match cloudmap.workloadEntriesForService svc nsName (disc svc) with
    | .error e => .error e
    | .ok wes => cloudmap.hostsLoop nsName disc rest (putKV hosts (svc ++ "." ++ nsName) wes)

/-- cloudmap watcher hostsForNamespace: list the services of one
namespace, then collect each host with its workload entries. -/
def cloudmap.hostsForNamespace (ns : sdTypes.NamespaceSummary)
    (listSvc : Except String (List String))
    (disc : String → Except String (List sdTypes.HttpInstanceSummary)) :
    Except String (List (String × List v1alpha3.WorkloadEntry)) :=
  match listSvc with
  | .error e => .error e
  | .ok svcNames => cloudmap.hostsLoop ns.name disc svcNames []

/-- cloudmap watcher refreshStore inner loop: merge each namespace into
the temporary store, abandoning the whole refresh on the first error. -/
def cloudmap.refreshLoop
    (hostsFor : sdTypes.NamespaceSummary →
      Except String (List (String × List v1alpha3.WorkloadEntry))) :
    List sdTypes.NamespaceSummary → List (String × List v1alpha3.WorkloadEntry) →
      Option (List (String × List v1alpha3.WorkloadEntry))
  | [], temp => some temp
  | ns :: rest, temp =>
    match hostsFor ns with
    | .error _ => none
    | .ok hosts => cloudmap.refreshLoop hostsFor rest (hosts.foldl (fun a kv => putKV a kv.1 kv.2) temp)

/-- cloudmap watcher refreshStore: the value is the list of Store.Set
calls the cycle issues (empty on any failure, one full snapshot on
success). -/
def cloudmap.refreshStore
    (listNs : Except String (List sdTypes.NamespaceSummary))
    (hostsFor : sdTypes.NamespaceSummary →
      Except String (List (String × List v1alpha3.WorkloadEntry))) :
    List (List (String × List v1alpha3.WorkloadEntry)) :=
  match listNs with
  | .error _ => []
  | .ok nss =>
    match cloudmap.refreshLoop hostsFor nss [] with
    | none => []
    | some temp => [temp]

/-- Consul catalog service: the fields the watcher reads. -/
structure api.CatalogService where
  serviceID : String
  serviceName : String
  address : String
  servicePort : Int
deriving DecidableEq, Repr

/-- consul watcher catalogServiceToWorkloadEntry: skip instances with an
empty address; an optional positive port goes through infer.WorkloadEntry,
otherwise the default http:80, https:443 pair is assumed. -/
def consul.catalogServiceToWorkloadEntry (c : api.CatalogService) :
    Option v1alpha3.WorkloadEntry :=
  if c.address = "" then none
  else if c.servicePort > 0 then
    some (infer.WorkloadEntry c.address (uint32OfInt c.servicePort))
  else some { address := c.address, ports := [("http", 80), ("https", 443)] }

/-- consul watcher refreshStore data assembly: convert each described
service, storing a host only when at least one workload entry survived. -/
def consul.buildData : List (String × List api.CatalogService) →
    List (String × List v1alpha3.WorkloadEntry)
  | [] => []
  | (name, cs) :: rest =>
    let wes := cs.filterMap consul.catalogServiceToWorkloadEntry
    if wes.length > 0 then (name, wes) :: consul.buildData rest
    else consul.buildData rest

/-- consul watcher listServices error kinds: the distinguished
index-unchanged sentinel versus a wrapped transport error. -/
inductive consul.ListError where
  | indexChangeTimeout
  | other (msg : String)
deriving DecidableEq, Repr

/-- consul watcher listServices: an unchanged catalog index becomes the
sentinel error. -/
def consul.listServices (lastIndex : Nat) (resp : Except String (List String × Nat)) :
    Except consul.ListError (List String × Nat) :=
  match resp with
  | .error e => .error (.other e)
  | .ok (data, newIndex) =>
    if lastIndex = newIndex then .error .indexChangeTimeout
    else .ok (data, newIndex)

/-- consul watcher describeServices: a failing describe only skips that
one service. -/
def consul.describeServices (describe : String → Except String (List api.CatalogService))
    (names : List String) : List (String × List api.CatalogService) :=
  names.foldl (fun ss name =>
    match describe name with
    | .error _ => ss
    | .ok svcs => ss ++ [(name, svcs)]) []

/-- consul watcher refreshStore: the value is the list of Store.Set calls
the cycle issues (none when listing fails or the index is unchanged). -/
def consul.refreshStore (lastIndex : Nat) (resp : Except String (List String × Nat))
    (describe : String → Except String (List api.CatalogService)) :
    List (List (String × List v1alpha3.WorkloadEntry)) :=
  match consul.listServices lastIndex resp with
  | .error _ => []
  | .ok (names, _) => [consul.buildData (consul.describeServices describe names)]

/-- Store contents after a cycle: each Set call replaces the snapshot
wholesale, so the last one wins and no call keeps the previous value. -/
def storeAfter (prev : List (String × List v1alpha3.WorkloadEntry))
    (sets : List (List (String × List v1alpha3.WorkloadEntry))) :
    List (String × List v1alpha3.WorkloadEntry) :=
  sets.foldl (fun _ s => s) prev

/-- A host name built as service.namespace is never the empty string. -/
theorem dotJoin_ne_empty (s t : String) : s ++ "." ++ t ≠ "" := by
  intro h
  have hlen := congrArg String.length h
  rw [String.length_append, String.length_append] at hlen
  have h1 : ".".length = 1 := rfl
  have h0 : "".length = 0 := rfl
  omega

/-- One failing namespace aborts the whole Cloud Map refresh loop. -/
theorem cloudmap.refreshLoop_error
    (hostsFor : sdTypes.NamespaceSummary →
      Except String (List (String × List v1alpha3.WorkloadEntry))) :
    ∀ (nss : List sdTypes.NamespaceSummary) (temp : List (String × List v1alpha3.WorkloadEntry)),
      (∃ ns ∈ nss, ∃ e, hostsFor ns = .error e) →
      cloudmap.refreshLoop hostsFor nss temp = none := by
  intro nss
  induction nss with
  | nil =>
    intro temp h
    obtain ⟨ns, hmem, -⟩ := h
    cases hmem
  | cons ns0 rest ih =>
    intro temp h
    obtain ⟨ns, hmem, e, he⟩ := h
    rcases List.mem_cons.mp hmem with rfl | hmem2
    · simp [cloudmap.refreshLoop, he]
    · cases hf : hostsFor ns0 with
      | error e2 => simp [cloudmap.refreshLoop, hf]
      | ok hosts =>
        simp only [cloudmap.refreshLoop, hf]
        exact ih _ ⟨ns, hmem2, e, he⟩

/-- A Cloud Map refresh loop that produced a snapshot saw every namespace
listing succeed. -/
theorem cloudmap.refreshLoop_ok
    (hostsFor : sdTypes.NamespaceSummary →
      Except String (List (String × List v1alpha3.WorkloadEntry))) :
    ∀ (nss : List sdTypes.NamespaceSummary) (temp s : List (String × List v1alpha3.WorkloadEntry)),
      cloudmap.refreshLoop hostsFor nss temp = some s →
      ∀ ns ∈ nss, ∃ hosts, hostsFor ns = .ok hosts := by
  intro nss
  induction nss with
  | nil =>
    intro temp s _h ns hmem
    cases hmem
  | cons ns0 rest ih =>
    intro temp s hloop ns hmem
    cases hf : hostsFor ns0 with
    | error e => simp [cloudmap.refreshLoop, hf] at hloop
    | ok hosts =>
      simp only [cloudmap.refreshLoop, hf] at hloop
      rcases List.mem_cons.mp hmem with rfl | hmem2
      · exact ⟨hosts, hf⟩
      · exact ih _ _ hloop ns hmem2

/-- C4: a failed poller cycle issues no Store.Set call at all — for Cloud
Map a ListNamespaces error or any per-namespace failure, for consul a
listing error or an unchanged catalog index — so the previous snapshot is
retained; a cycle issues at most one Set, and only a cycle in which every
namespace succeeded issues one. -/
theorem c4_failed_refresh_retains_store :
    (∀ (e : String) hostsFor, cloudmap.refreshStore (.error e) hostsFor = []) ∧
    (∀ nss hostsFor, (∃ ns ∈ nss, ∃ e, hostsFor ns = Except.error e) →
      cloudmap.refreshStore (.ok nss) hostsFor = []) ∧
    (∀ listNs hostsFor, (cloudmap.refreshStore listNs hostsFor).length ≤ 1) ∧
    (∀ nss hostsFor snap, cloudmap.refreshStore (.ok nss) hostsFor = [snap] →
      ∀ ns ∈ nss, ∃ hosts, hostsFor ns = .ok hosts) ∧
    (∀ lastIndex (e : String) describe, consul.refreshStore lastIndex (.error e) describe = []) ∧
    (∀ lastIndex names describe,
      consul.refreshStore lastIndex (.ok (names, lastIndex)) describe = []) ∧
    (∀ lastIndex resp describe, (consul.refreshStore lastIndex resp describe).length ≤ 1) ∧
    (∀ prev, storeAfter prev [] = prev) := by
  refine ⟨?_, ?_, ?_, ?_, ?_, ?_, ?_, ?_⟩
  · intro e hostsFor; rfl
  · intro nss hostsFor h
    simp [cloudmap.refreshStore, cloudmap.refreshLoop_error hostsFor nss [] h]
  · intro listNs hostsFor
    cases listNs with
    | error e => simp [cloudmap.refreshStore]
    | ok nss =>
      cases hl : cloudmap.refreshLoop hostsFor nss [] with
      | none => simp [cloudmap.refreshStore, hl]
      | some temp => simp [cloudmap.refreshStore, hl]
  · intro nss hostsFor snap hset
    cases hl : cloudmap.refreshLoop hostsFor nss [] with
    | none => simp [cloudmap.refreshStore, hl] at hset
    | some temp => exact cloudmap.refreshLoop_ok hostsFor nss [] temp hl
  · intro lastIndex e describe; rfl
  · intro lastIndex names describe
    simp [consul.refreshStore, consul.listServices]
  · intro lastIndex resp describe
    cases resp with
    | error e => simp [consul.refreshStore, consul.listServices]
    | ok p =>
      rcases p with ⟨names, newIndex⟩
      by_cases hidx : lastIndex = newIndex
      · simp [consul.refreshStore, consul.listServices, hidx]
      · simp [consul.refreshStore, consul.listServices, hidx]
  · intro prev; rfl

/-- C4 witness: concrete failing cycles issue zero Set calls for both
watchers, and a concrete all-successful Cloud Map cycle issues one. -/
theorem c4_failed_refresh_retains_store_witness :
    cloudmap.refreshStore (.error "bang") (fun _ => .ok []) = [] ∧
    cloudmap.refreshStore (.ok [{ id := "tetrate.io", name := "tetrate.io" }])
      (fun _ => .error "bang") = [] ∧
    consul.refreshStore 5 (.error "bang") (fun _ => .ok []) = [] ∧
    consul.refreshStore 5 (.ok (["demo"], 5)) (fun _ => .ok []) = [] :=
  ⟨c4_failed_refresh_retains_store.1 "bang" _,
   c4_failed_refresh_retains_store.2.1 _ _
     ⟨{ id := "tetrate.io", name := "tetrate.io" }, by simp, "bang", rfl⟩,
   c4_failed_refresh_retains_store.2.2.2.2.1 5 "bang" _,
   c4_failed_refresh_retains_store.2.2.2.2.2.1 5 ["demo"] _⟩

/-- Keys already stored stay present through the Cloud Map host loop. -/
theorem cloudmap.hostsLoop_preserves (nsName : String)
    (disc : String → Except String (List sdTypes.HttpInstanceSummary)) :
    ∀ (svcs : List String) (hosts res : List (String × List v1alpha3.WorkloadEntry))
      (k : String),
      cloudmap.hostsLoop nsName disc svcs hosts = .ok res →
      (hosts.lookup k).isSome = true → (res.lookup k).isSome = true := by
  intro svcs
  induction svcs with
  | nil =>
    intro hosts res k hloop hk
    cases hloop
    exact hk
  | cons svc rest ih =>
    intro hosts res k hloop hk
    cases hw : cloudmap.workloadEntriesForService svc nsName (disc svc) with
    | error e => simp [cloudmap.hostsLoop, hw] at hloop
    | ok wes =>
      simp only [cloudmap.hostsLoop, hw] at hloop
      refine ih _ _ _ hloop ?_
      rw [lookup_putKV]
      by_cases hkk : k = svc ++ "." ++ nsName
      · simp [hkk]
      · rw [if_neg hkk]; exact hk

/-- C9: a Cloud Map service whose DiscoverInstances call succeeds with
zero instances yields the single synthesized record whose address is the
host name serviceName.namespaceName with the default two-port map, and
every listed service keeps its host present in the namespace result. -/
theorem c9_zero_instances_host_retained :
    (∀ svcName nsName : String,
      cloudmap.workloadEntriesForService svcName nsName (.ok []) =
        .ok [{ address := svcName ++ "." ++ nsName,
               ports := [("http", 80), ("https", 443)] }]) ∧
    (∀ (nsName : String) disc (svcs : List String)
        (hosts res : List (String × List v1alpha3.WorkloadEntry)),
      cloudmap.hostsLoop nsName disc svcs hosts = .ok res →
      ∀ svc ∈ svcs, ((res.lookup (svc ++ "." ++ nsName)).isSome = true)) := by
  constructor
  · intro svcName nsName
    simp [cloudmap.workloadEntriesForService, cloudmap.instancesToWorkloadEntries,
      cloudmap.instanceToWorkloadEntry, List.lookup, dotJoin_ne_empty svcName nsName]
  · intro nsName disc svcs
    induction svcs with
    | nil =>
      intro hosts res hloop svc hmem
      cases hmem
    | cons svc0 rest ih =>
      intro hosts res hloop svc hmem
      cases hw : cloudmap.workloadEntriesForService svc0 nsName (disc svc0) with
      | error e => simp [cloudmap.hostsLoop, hw] at hloop
      | ok wes =>
        simp only [cloudmap.hostsLoop, hw] at hloop
        rcases List.mem_cons.mp hmem with rfl | hmem2
        · refine cloudmap.hostsLoop_preserves nsName disc rest _ _ _ hloop ?_
          rw [lookup_putKV]
          simp
        · exact ih _ _ hloop svc hmem2

/-- C9 witness: the synthesized host record and its presence after the
loop, at concrete names. -/
theorem c9_zero_instances_host_retained_witness :
    cloudmap.workloadEntriesForService "demo" "tetrate.io" (.ok []) =
      .ok [{ address := "demo.tetrate.io", ports := [("http", 80), ("https", 443)] }] ∧
    ((cloudmap.hostsLoop "tetrate.io" (fun _ => .ok []) ["demo"] []).toOption.getD []).lookup
        "demo.tetrate.io" ≠ none :=
  ⟨c9_zero_instances_host_retained.1 "demo" "tetrate.io",
   by
    have h := c9_zero_instances_host_retained.2 "tetrate.io" (fun _ => .ok [])
      ["demo"] []
      ((cloudmap.hostsLoop "tetrate.io" (fun _ => .ok []) ["demo"] []).toOption.getD [])
      (by rfl) "demo" (by simp)
    simpa [Option.isSome_iff_ne_none] using h⟩

/-- C10: an empty consul instance address, or a Cloud Map instance with
neither an AWS_INSTANCE_IPV4 nor an AWS_INSTANCE_CNAME attribute, never
produces a workload entry, and a consul service all of whose instances
are skipped is omitted from the assembled snapshot entirely. -/
theorem c10_unusable_addresses_skipped :
    (∀ c : api.CatalogService, c.address = "" →
      consul.catalogServiceToWorkloadEntry c = none) ∧
    (∀ inst : sdTypes.HttpInstanceSummary,
      inst.attributes.lookup "AWS_INSTANCE_IPV4" = none →
      inst.attributes.lookup "AWS_INSTANCE_CNAME" = none →
      cloudmap.instanceToWorkloadEntry inst = none) ∧
    (∀ (css : List (String × List api.CatalogService)) (name : String),
      (∀ cs, (name, cs) ∈ css → ∀ c ∈ cs, consul.catalogServiceToWorkloadEntry c = none) →
      (consul.buildData css).lookup name = none) := by
  refine ⟨?_, ?_, ?_⟩
  · intro c h
    simp [consul.catalogServiceToWorkloadEntry, h]
  · intro inst h4 hcname
    simp [cloudmap.instanceToWorkloadEntry, h4, hcname]
  · intro css
    induction css with
    | nil => intro name h; rfl
    | cons p rest ih =>
      intro name h
      rcases p with ⟨n, cs⟩
      by_cases hn : n = name
      · subst hn
        have hnil : cs.filterMap consul.catalogServiceToWorkloadEntry = [] :=
          List.filterMap_eq_nil_iff.mpr (h cs (List.mem_cons_self _ _))
        simp only [consul.buildData, hnil]
        simp only [List.length_nil, gt_iff_lt, Nat.lt_irrefl, if_false]
        exact ih _ fun cs2 hmem => h cs2 (List.mem_cons_of_mem _ hmem)
      · have hrest : (consul.buildData rest).lookup name = none :=
          ih _ fun cs2 hmem => h cs2 (List.mem_cons_of_mem _ hmem)
        by_cases hlen : (cs.filterMap consul.catalogServiceToWorkloadEntry).length > 0
        · have hne2 : name ≠ n := fun he => hn he.symm
          have hbeq : (name == n) = false := by simp [hne2]
          simp only [consul.buildData, if_pos hlen]
          rw [List.lookup, hbeq]
          exact hrest
        · simp only [consul.buildData, if_neg hlen]
          exact hrest

/-- C10 witness: a consul instance with an empty address, a Cloud Map
instance carrying only AWS_ALIAS_DNS_NAME, and a service whose sole
instance is skipped, all at concrete inputs. -/
theorem c10_unusable_addresses_skipped_witness :
    consul.catalogServiceToWorkloadEntry
      { serviceID := "i1", serviceName := "demo", address := "", servicePort := 80 } = none ∧
    cloudmap.instanceToWorkloadEntry
      { attributes := [("AWS_ALIAS_DNS_NAME", "tetrate.io")] } = none ∧
    (consul.buildData
      [("demo", [{ serviceID := "i1", serviceName := "demo", address := "",
                   servicePort := 80 }])]).lookup "demo" = none :=
  ⟨c10_unusable_addresses_skipped.1 _ rfl,
   c10_unusable_addresses_skipped.2.1 _ (by simp [List.lookup]) (by simp [List.lookup]),
   c10_unusable_addresses_skipped.2.2 _ "demo" (by
    intro cs hmem c hc
    simp only [List.mem_cons, List.not_mem_nil, or_false] at hmem
    rcases hmem with ⟨-, rfl⟩
    simp only [List.mem_cons, List.not_mem_nil, or_false] at hc
    subst hc
    rfl)⟩

/-- Modelled from the spec: the synchronizer source is absent from src/
(only its test file is staged).  A ServiceEntry configuration object:
its name, an opaque concurrency token standing for all non-mesh metadata,
and the four mesh-relevant spec fields. -/
structure ServiceEntry where
  name : String
  resourceVersion : String
  hosts : List String
  resolution : v1alpha3.ServiceEntryResolution
  ports : List v1alpha3.ServicePort
  endpoints : List v1alpha3.WorkloadEntry
deriving DecidableEq, Repr

/-- Calls the synchronizer can issue against the configuration client. -/
inductive ClientCall where
  | create (se : ServiceEntry)
  | update (se : ServiceEntry)
  | get (name : String)
  | delete (name : String)
deriving DecidableEq, Repr

/-- Lookup of a configuration object by name, the GetByName of the local
cache and the Get of the client alike. -/
def getByName (l : List ServiceEntry) (n : String) : Option ServiceEntry :=
  l.find? (fun se => se.name == n)

/-- Object store after a create or update of one named object. -/
def putByName (l : List ServiceEntry) (se : ServiceEntry) : List ServiceEntry :=
  se :: l.filter (fun x => !(x.name == se.name))

/-- The mesh-relevant fields compared by the diff: hosts, resolution,
ports and endpoints; metadata is ignored. -/
def meshFields (se : ServiceEntry) :
    List String × v1alpha3.ServiceEntryResolution × List v1alpha3.ServicePort ×
      List v1alpha3.WorkloadEntry :=
  (se.hosts, se.resolution, se.ports, se.endpoints)

/-- Modelled from the spec: the ephemeral DesiredConfigObject computed
from one host and its current records. -/
def desiredServiceEntry (pfx host : String) (wes : List v1alpha3.WorkloadEntry) :
    ServiceEntry :=
  { name := infer.ServiceEntryName pfx host
    resourceVersion := ""
    hosts := [host]
    resolution := infer.Resolution wes
    ports := infer.Ports wes
    endpoints := wes }

/-- Overwrite the mesh-relevant fields of a re-fetched object, keeping its
metadata (name and concurrency token) — a detected difference replaces
the whole spec wholesale. -/
def overwriteMesh (base desired : ServiceEntry) : ServiceEntry :=
  { base with
      hosts := desired.hosts
      resolution := desired.resolution
      ports := desired.ports
      endpoints := desired.endpoints }

/-- Modelled from the spec: one createOrUpdate step for one host.  Not in
the cache: Create.  Cached and mesh-equal: no-op.  Cached and different:
re-fetch by name directly from the client for the latest concurrency
token, then Update the overwritten object — or Create instead when the
re-fetch finds nothing, the error-handling rule that a cache miss on an
Update re-fetch is treated as a create. -/
def createOrUpdate (pfx : String) (cache client : List ServiceEntry)
    (host : String) (wes : List v1alpha3.WorkloadEntry) : List ClientCall :=
  let desired := desiredServiceEntry pfx host wes
  match getByName cache desired.name with
  | none => [.create desired]
  | some actual =>
    if meshFields actual = meshFields desired then []
    else
      match getByName client desired.name with
      | none => [.get desired.name, .create desired]
      | some fetched => [.get desired.name, .update (overwriteMesh fetched desired)]

/-- Effect of one issued call on the object state held by the client. -/
def applyCall (client : List ServiceEntry) : ClientCall → List ServiceEntry
  | .create se => putByName client se
  | .update se => putByName client se
  | .get _ => client
  | .delete n => client.filter (fun x => !(x.name == n))

/-- Effect of a call sequence on the client object state. -/
def applyCalls (client : List ServiceEntry) (calls : List ClientCall) :
    List ServiceEntry :=
  calls.foldl applyCall client

/-- Modelled from the spec: the create-or-update pass over every host of
the Store snapshot.  The cache view is the one read at the start of the
pass; the client state reflects each call as it is issued. -/
def createOrUpdatePass (pfx : String) (cache : List ServiceEntry) :
    List (String × List v1alpha3.WorkloadEntry) → List ServiceEntry →
      List ClientCall × List ServiceEntry
  | [], client => ([], client)
  | (host, wes) :: rest, client =>
    let cs := createOrUpdate pfx cache client host wes
    let r := createOrUpdatePass pfx cache rest (applyCalls client cs)
    (cs ++ r.1, r.2)

/-- Character-level test that the first string starts the second, the
naming-convention check used by garbage collection. -/
def strHasPfx (pfx s : String) : Bool :=
  pfx.data.isPrefixOf s.data

/-- Modelled from the spec: the garbage-collect pass enumerates the cached
objects carrying the backend prefix and deletes, by name, those whose
host is absent from the current Store snapshot. -/
def garbageCollect (pfx : String) (cache : List ServiceEntry)
    (store : List (String × List v1alpha3.WorkloadEntry)) : List ClientCall :=
  (cache.filter (fun se => strHasPfx pfx se.name)).foldl
    (fun calls se =>
      calls ++
        (if (store.lookup (se.name.drop pfx.length)).isSome then []
         else [.delete se.name])) []

/-- Number of Create calls in a call sequence. -/
def countCreate (calls : List ClientCall) : Nat :=
  calls.countP (fun c => match c with | .create _ => true | _ => false)

/-- Number of Update calls in a call sequence. -/
def countUpdate (calls : List ClientCall) : Nat :=
  calls.countP (fun c => match c with | .update _ => true | _ => false)

/-- Number of Get calls in a call sequence. -/
def countGet (calls : List ClientCall) : Nat :=
  calls.countP (fun c => match c with | .get _ => true | _ => false)

/-- Number of Delete calls in a call sequence. -/
def countDelete (calls : List ClientCall) : Nat :=
  calls.countP (fun c => match c with | .delete _ => true | _ => false)

/-- Membership in a left fold that only appends. -/
theorem mem_foldl_append {α β : Type} (f : α → List β) :
    ∀ (l : List α) (acc : List β) (x : β),
      x ∈ l.foldl (fun a e => a ++ f e) acc ↔ x ∈ acc ∨ ∃ e ∈ l, x ∈ f e := by
  intro l
  induction l with
  | nil => intro acc x; simp
  | cons e l ih =>
    intro acc x
    rw [List.foldl_cons, ih]
    simp only [List.mem_append, List.mem_cons]
    constructor
    · rintro ((hx | hx) | ⟨e2, he2, hx⟩)
      · exact Or.inl hx
      · exact Or.inr ⟨e, Or.inl rfl, hx⟩
      · exact Or.inr ⟨e2, Or.inr he2, hx⟩
    · rintro (hx | ⟨e2, (rfl | he2), hx⟩)
      · exact Or.inl (Or.inl hx)
      · exact Or.inl (Or.inr hx)
      · exact Or.inr ⟨e2, he2, hx⟩

/-- C2: the garbage-collect pass for one backend deletes a name exactly
when some cached object has that name, the name carries the backend
prefix, and the host obtained by stripping the prefix is absent from that
backend Store snapshot; it never deletes a name not carrying the prefix
(ownership isolation), and it issues nothing but Delete calls. -/
theorem c2_garbage_collect_ownership (pfx : String) (cache : List ServiceEntry)
    (store : List (String × List v1alpha3.WorkloadEntry)) :
    (∀ n : String,
      ClientCall.delete n ∈ garbageCollect pfx cache store ↔
        ∃ se ∈ cache, se.name = n ∧ strHasPfx pfx n = true ∧
          store.lookup (n.drop pfx.length) = none) ∧
    (∀ n : String, strHasPfx pfx n = false →
      ClientCall.delete n ∉ garbageCollect pfx cache store) ∧
    (∀ c ∈ garbageCollect pfx cache store, ∃ n, c = ClientCall.delete n) := by
  have hmem : ∀ x : ClientCall,
      x ∈ garbageCollect pfx cache store ↔
        ∃ se ∈ cache.filter (fun se => strHasPfx pfx se.name),
          x ∈ (if (store.lookup (se.name.drop pfx.length)).isSome then ([] : List ClientCall)
               else [.delete se.name]) := by
    intro x
    unfold garbageCollect
    rw [mem_foldl_append]
    simp
  have hiff : ∀ n : String,
      ClientCall.delete n ∈ garbageCollect pfx cache store ↔
        ∃ se ∈ cache, se.name = n ∧ strHasPfx pfx n = true ∧
          store.lookup (n.drop pfx.length) = none := by
    intro n
    rw [hmem]
    constructor
    · rintro ⟨se, hse, hx⟩
      rw [List.mem_filter] at hse
      by_cases hc : (store.lookup (se.name.drop pfx.length)).isSome
      · rw [if_pos hc] at hx; cases hx
      · rw [if_neg hc] at hx
        have hname : ClientCall.delete n = ClientCall.delete se.name :=
          List.mem_singleton.mp hx
        cases hname
        exact ⟨se, hse.1, rfl, hse.2,
          Option.not_isSome_iff_eq_none.mp hc⟩
    · rintro ⟨se, hse, rfl, hpfx, hnone⟩
      refine ⟨se, List.mem_filter.mpr ⟨hse, hpfx⟩, ?_⟩
      rw [hnone]
      simp
  refine ⟨hiff, ?_, ?_⟩
  · intro n hpfx hdel
    obtain ⟨se, -, rfl, hpfx2, -⟩ := (hiff n).mp hdel
    rw [hpfx] at hpfx2
    cases hpfx2
  · intro c hc
    obtain ⟨se, -, hx⟩ := (hmem c).mp hc
    by_cases hcond : (store.lookup (se.name.drop pfx.length)).isSome
    · rw [if_pos hcond] at hx; cases hx
    · rw [if_neg hcond] at hx
      exact ⟨se.name, List.mem_singleton.mp hx⟩

/-- C2 witness: at concrete inputs, a cloudmap-prefixed object whose host
left the snapshot is deleted, the same object is kept while its host is
present, and a consul-prefixed object is never deleted by the cloudmap
pass. -/
theorem c2_garbage_collect_ownership_witness :
    ClientCall.delete "cloudmap-tetrate.io" ∈
      garbageCollect "cloudmap-" [desiredServiceEntry "cloudmap-" "tetrate.io" []] [] ∧
    ClientCall.delete "cloudmap-tetrate.io" ∉
      garbageCollect "cloudmap-" [desiredServiceEntry "cloudmap-" "tetrate.io" []]
        [("tetrate.io", [])] ∧
    ClientCall.delete "consul-demo" ∉
      garbageCollect "cloudmap-" [desiredServiceEntry "consul-" "demo" []]
        [("demo", [])] := by
  refine ⟨?_, ?_, ?_⟩
  · exact ((c2_garbage_collect_ownership "cloudmap-"
      [desiredServiceEntry "cloudmap-" "tetrate.io" []] []).1 "cloudmap-tetrate.io").mpr
      ⟨desiredServiceEntry "cloudmap-" "tetrate.io" [], by simp, by decide, by decide, rfl⟩
  · intro hdel
    obtain ⟨se, hse, hname, -, hnone⟩ :=
      ((c2_garbage_collect_ownership "cloudmap-"
        [desiredServiceEntry "cloudmap-" "tetrate.io" []]
        [("tetrate.io", [])]).1 "cloudmap-tetrate.io").mp hdel
    rw [show ("cloudmap-tetrate.io".drop "cloudmap-".length) = "tetrate.io" by decide] at hnone
    simp [List.lookup] at hnone
  · exact (c2_garbage_collect_ownership "cloudmap-"
      [desiredServiceEntry "consul-" "demo" []] [("demo", [])]).2.1 "consul-demo" (by decide)

/-- createOrUpdate with no cached object of the desired name: one Create. -/
theorem createOrUpdate_not_cached (pfx : String) (cache client : List ServiceEntry)
    (host : String) (wes : List v1alpha3.WorkloadEntry)
    (h : getByName cache (infer.ServiceEntryName pfx host) = none) :
    createOrUpdate pfx cache client host wes =
      [.create (desiredServiceEntry pfx host wes)] := by
  unfold createOrUpdate
  dsimp only
  rw [show (desiredServiceEntry pfx host wes).name = infer.ServiceEntryName pfx host from rfl, h]

/-- createOrUpdate with a mesh-equal cached object: no call. -/
theorem createOrUpdate_equal (pfx : String) (cache client : List ServiceEntry)
    (host : String) (wes : List v1alpha3.WorkloadEntry) (actual : ServiceEntry)
    (h : getByName cache (infer.ServiceEntryName pfx host) = some actual)
    (hm : meshFields actual = meshFields (desiredServiceEntry pfx host wes)) :
    createOrUpdate pfx cache client host wes = [] := by
  unfold createOrUpdate
  dsimp only
  rw [show (desiredServiceEntry pfx host wes).name = infer.ServiceEntryName pfx host from rfl, h]
  simp [hm]

/-- createOrUpdate with a different cached object and a successful
re-fetch: one Get then one Update. -/
theorem createOrUpdate_diff_found (pfx : String) (cache client : List ServiceEntry)
    (host : String) (wes : List v1alpha3.WorkloadEntry) (actual fetched : ServiceEntry)
    (h : getByName cache (infer.ServiceEntryName pfx host) = some actual)
    (hm : meshFields actual ≠ meshFields (desiredServiceEntry pfx host wes))
    (hcl : getByName client (infer.ServiceEntryName pfx host) = some fetched) :
    createOrUpdate pfx cache client host wes =
      [.get (infer.ServiceEntryName pfx host),
       .update (overwriteMesh fetched (desiredServiceEntry pfx host wes))] := by
  unfold createOrUpdate
  dsimp only
  rw [show (desiredServiceEntry pfx host wes).name = infer.ServiceEntryName pfx host from rfl, h]
  simp only [if_neg hm]
  rw [hcl]

/-- createOrUpdate with a different cached object and a re-fetch that
finds nothing: one Get then one Create. -/
theorem createOrUpdate_diff_missing (pfx : String) (cache client : List ServiceEntry)
    (host : String) (wes : List v1alpha3.WorkloadEntry) (actual : ServiceEntry)
    (h : getByName cache (infer.ServiceEntryName pfx host) = some actual)
    (hm : meshFields actual ≠ meshFields (desiredServiceEntry pfx host wes))
    (hcl : getByName client (infer.ServiceEntryName pfx host) = none) :
    createOrUpdate pfx cache client host wes =
      [.get (infer.ServiceEntryName pfx host),
       .create (desiredServiceEntry pfx host wes)] := by
  unfold createOrUpdate
  dsimp only
  rw [show (desiredServiceEntry pfx host wes).name = infer.ServiceEntryName pfx host from rfl, h]
  simp only [if_neg hm]
  rw [hcl]

/-- C1 (amended): one createOrUpdate step by exact case analysis on the
cached object of the desired name — not cached: exactly one Create and
nothing else; cached and mesh-equal: no call at all; cached and different
with the client re-fetch finding the object: exactly one Get then one
Update, zero Creates; cached and different with the re-fetch finding
nothing: exactly one Get then one Create (the re-fetch miss handled as a
create). -/
theorem c1_create_or_update_cases (pfx : String) (cache client : List ServiceEntry)
    (host : String) (wes : List v1alpha3.WorkloadEntry) :
    (getByName cache (infer.ServiceEntryName pfx host) = none →
      createOrUpdate pfx cache client host wes =
        [.create (desiredServiceEntry pfx host wes)]) ∧
    (∀ actual, getByName cache (infer.ServiceEntryName pfx host) = some actual →
      meshFields actual = meshFields (desiredServiceEntry pfx host wes) →
      createOrUpdate pfx cache client host wes = []) ∧
    (∀ actual fetched, getByName cache (infer.ServiceEntryName pfx host) = some actual →
      meshFields actual ≠ meshFields (desiredServiceEntry pfx host wes) →
      getByName client (infer.ServiceEntryName pfx host) = some fetched →
      createOrUpdate pfx cache client host wes =
        [.get (infer.ServiceEntryName pfx host),
         .update (overwriteMesh fetched (desiredServiceEntry pfx host wes))]) ∧
    (∀ actual, getByName cache (infer.ServiceEntryName pfx host) = some actual →
      meshFields actual ≠ meshFields (desiredServiceEntry pfx host wes) →
      getByName client (infer.ServiceEntryName pfx host) = none →
      createOrUpdate pfx cache client host wes =
        [.get (infer.ServiceEntryName pfx host),
         .create (desiredServiceEntry pfx host wes)]) := by
  exact ⟨fun h => createOrUpdate_not_cached pfx cache client host wes h,
   fun actual h hm => createOrUpdate_equal pfx cache client host wes actual h hm,
   fun actual fetched h hm hcl =>
     createOrUpdate_diff_found pfx cache client host wes actual fetched h hm hcl,
   fun actual h hm hcl =>
     createOrUpdate_diff_missing pfx cache client host wes actual h hm hcl⟩

/-- Records used by the concrete synchronizer scenarios. -/
def c1Wes : List v1alpha3.WorkloadEntry :=
  [{ address := "8.8.8.8", ports := [("http", 80)] }]

/-- A cached object of the desired name whose mesh fields are stale. -/
def c1Stale : ServiceEntry :=
  { name := "cloudmap-tetrate.io", resourceVersion := "1", hosts := ["tetrate.io"],
    resolution := .STATIC, ports := [], endpoints := [] }

/-- C1 counterexample: with the object cached but absent from the client,
the differ branch issues one Get and then one Create — not the Update and
zero Creates the claim states for every cached-and-different case. -/
theorem c1_counterexample :
    getByName [c1Stale] (infer.ServiceEntryName "cloudmap-" "tetrate.io") = some c1Stale ∧
    meshFields c1Stale ≠ meshFields (desiredServiceEntry "cloudmap-" "tetrate.io" c1Wes) ∧
    countCreate (createOrUpdate "cloudmap-" [c1Stale] [] "tetrate.io" c1Wes) = 1 ∧
    countUpdate (createOrUpdate "cloudmap-" [c1Stale] [] "tetrate.io" c1Wes) = 0 := by
  refine ⟨by decide, by decide, by decide, by decide⟩

/-- C1 witness: all four cases of the amended claim at concrete inputs. -/
theorem c1_create_or_update_cases_witness :
    createOrUpdate "cloudmap-" [] [] "not.tetrate.io" c1Wes =
      [.create (desiredServiceEntry "cloudmap-" "not.tetrate.io" c1Wes)] ∧
    createOrUpdate "cloudmap-" [desiredServiceEntry "cloudmap-" "tetrate.io" c1Wes] []
      "tetrate.io" c1Wes = [] ∧
    createOrUpdate "cloudmap-" [c1Stale] [c1Stale] "tetrate.io" c1Wes =
      [.get (infer.ServiceEntryName "cloudmap-" "tetrate.io"),
       .update (overwriteMesh c1Stale (desiredServiceEntry "cloudmap-" "tetrate.io" c1Wes))] ∧
    createOrUpdate "cloudmap-" [c1Stale] [] "tetrate.io" c1Wes =
      [.get (infer.ServiceEntryName "cloudmap-" "tetrate.io"),
       .create (desiredServiceEntry "cloudmap-" "tetrate.io" c1Wes)] :=
  ⟨(c1_create_or_update_cases "cloudmap-" [] [] "not.tetrate.io" c1Wes).1 (by decide),
   (c1_create_or_update_cases "cloudmap-" [desiredServiceEntry "cloudmap-" "tetrate.io" c1Wes]
      [] "tetrate.io" c1Wes).2.1 (desiredServiceEntry "cloudmap-" "tetrate.io" c1Wes)
      (by decide) (by decide),
   (c1_create_or_update_cases "cloudmap-" [c1Stale] [c1Stale] "tetrate.io" c1Wes).2.2.1
      c1Stale c1Stale (by decide) (by decide) (by decide),
   (c1_create_or_update_cases "cloudmap-" [c1Stale] [] "tetrate.io" c1Wes).2.2.2
      c1Stale (by decide) (by decide) (by decide)⟩

/-- The object name a call addresses. -/
def callName : ClientCall → String
  | .create se => se.name
  | .update se => se.name
  | .get n => n
  | .delete n => n

/-- A name found by getByName is the name searched for. -/
theorem getByName_eq_some_name (l : List ServiceEntry) (n : String) (se : ServiceEntry)
    (h : getByName l n = some se) : se.name = n := by
  have := List.find?_some h
  simpa using this

/-- Dropping one name from the object store leaves other lookups alone. -/
theorem getByName_filter_ne (l : List ServiceEntry) (m n : String) (h : ¬m = n) :
    (l.filter (fun x => !(x.name == m))).find? (fun se => se.name == n) =
      l.find? (fun se => se.name == n) := by
  induction l with
  | nil => rfl
  | cons a l ih =>
    by_cases ha : a.name = m
    · have h1 : (a.name == m) = true := by simp [ha]
      have h2 : (a.name == n) = false := by simp [ha, h]
      rw [List.filter_cons, List.find?_cons_of_neg _ (by simp [h2])]
      simp only [h1, Bool.not_true, Bool.false_eq_true, if_false]
      exact ih
    · have h1 : (a.name == m) = false := by simp [ha]
      rw [List.filter_cons]
      simp only [h1, Bool.not_false, if_true]
      by_cases hn : a.name = n
      · rw [List.find?_cons_of_pos _ (by simp [hn]), List.find?_cons_of_pos _ (by simp [hn])]
      · rw [List.find?_cons_of_neg _ (by simp [hn]), List.find?_cons_of_neg _ (by simp [hn])]
        exact ih

/-- Lookup after a create or update of one named object. -/
theorem getByName_putByName (l : List ServiceEntry) (se : ServiceEntry) (n : String) :
    getByName (putByName l se) n = if se.name = n then some se else getByName l n := by
  unfold putByName getByName
  by_cases h : se.name = n
  · rw [if_pos h]
    exact List.find?_cons_of_pos _ (by simp [h])
  · rw [if_neg h]
    rw [List.find?_cons_of_neg _ (by simp [h])]
    exact getByName_filter_ne l se.name n h

/-- A call addressing another name does not change a lookup. -/
theorem getByName_applyCall_ne (client : List ServiceEntry) (c : ClientCall) (n : String)
    (h : ¬callName c = n) : getByName (applyCall client c) n = getByName client n := by
  cases c with
  | create se =>
    rw [applyCall, getByName_putByName, if_neg (show ¬se.name = n from h)]
  | update se =>
    rw [applyCall, getByName_putByName, if_neg (show ¬se.name = n from h)]
  | get m => rfl
  | delete m =>
    unfold applyCall getByName
    exact getByName_filter_ne client m n h

/-- A call sequence addressing other names does not change a lookup. -/
theorem getByName_applyCalls_ne (calls : List ClientCall) :
    ∀ (client : List ServiceEntry) (n : String),
      (∀ c ∈ calls, ¬callName c = n) →
      getByName (applyCalls client calls) n = getByName client n := by
  induction calls with
  | nil => intro client n _; rfl
  | cons c calls ih =>
    intro client n h
    unfold applyCalls
    rw [List.foldl_cons]
    have : (calls.foldl applyCall (applyCall client c)) = applyCalls (applyCall client c) calls := rfl
    rw [this, ih _ _ (fun c2 hc2 => h c2 (List.mem_cons_of_mem _ hc2)),
      getByName_applyCall_ne _ _ _ (h c (List.mem_cons_self _ _))]

/-- Every call one createOrUpdate step issues addresses the object name of
its own host. -/
theorem createOrUpdate_callNames (pfx : String) (cache client : List ServiceEntry)
    (host : String) (wes : List v1alpha3.WorkloadEntry) :
    ∀ c ∈ createOrUpdate pfx cache client host wes,
      callName c = infer.ServiceEntryName pfx host := by
  cases hc : getByName cache (infer.ServiceEntryName pfx host) with
  | none =>
    rw [createOrUpdate_not_cached pfx cache client host wes hc]
    intro c hc2
    rcases List.mem_singleton.mp hc2 with rfl
    rfl
  | some actual =>
    by_cases hm : meshFields actual = meshFields (desiredServiceEntry pfx host wes)
    · rw [createOrUpdate_equal pfx cache client host wes actual hc hm]
      intro c hc2
      cases hc2
    · cases hcl : getByName client (infer.ServiceEntryName pfx host) with
      | none =>
        rw [createOrUpdate_diff_missing pfx cache client host wes actual hc hm hcl]
        intro c hc2
        rcases List.mem_cons.mp hc2 with rfl | hc3
        · rfl
        · rcases List.mem_singleton.mp hc3 with rfl
          rfl
      | some fetched =>
        have hfn : fetched.name = infer.ServiceEntryName pfx host :=
          getByName_eq_some_name _ _ _ hcl
        rw [createOrUpdate_diff_found pfx cache client host wes actual fetched hc hm hcl]
        intro c hc2
        rcases List.mem_cons.mp hc2 with rfl | hc3
        · rfl
        · rcases List.mem_singleton.mp hc3 with rfl
          show (overwriteMesh fetched (desiredServiceEntry pfx host wes)).name = _
          rw [show (overwriteMesh fetched (desiredServiceEntry pfx host wes)).name =
            fetched.name from rfl, hfn]

/-- Names built from the same backend prefix coincide only on the same
host. -/
theorem serviceEntryName_inj (pfx a b : String)
    (h : infer.ServiceEntryName pfx a = infer.ServiceEntryName pfx b) : a = b := by
  unfold infer.ServiceEntryName at h
  have hd := congrArg String.data h
  rw [String.data_append, String.data_append] at hd
  exact String.ext (List.append_cancel_left hd)

/-- After one createOrUpdate step on a client that agreed with the cache
at the object name, the client object of that name carries exactly the
desired mesh fields. -/
theorem createOrUpdate_post (pfx : String) (cache client : List ServiceEntry)
    (host : String) (wes : List v1alpha3.WorkloadEntry)
    (hcoh : getByName client (infer.ServiceEntryName pfx host) =
      getByName cache (infer.ServiceEntryName pfx host)) :
    (getByName (applyCalls client (createOrUpdate pfx cache client host wes))
        (infer.ServiceEntryName pfx host)).map meshFields =
      some (meshFields (desiredServiceEntry pfx host wes)) := by
  cases hc : getByName cache (infer.ServiceEntryName pfx host) with
  | none =>
    rw [createOrUpdate_not_cached pfx cache client host wes hc]
    show (getByName (putByName client (desiredServiceEntry pfx host wes))
      (infer.ServiceEntryName pfx host)).map meshFields = _
    rw [getByName_putByName,
      if_pos (show (desiredServiceEntry pfx host wes).name = infer.ServiceEntryName pfx host
        from rfl)]
    rfl
  | some actual =>
    by_cases hm : meshFields actual = meshFields (desiredServiceEntry pfx host wes)
    · rw [createOrUpdate_equal pfx cache client host wes actual hc hm]
      show (getByName client (infer.ServiceEntryName pfx host)).map meshFields = _
      rw [hcoh, hc]
      simpa using hm
    · have hcl : getByName client (infer.ServiceEntryName pfx host) = some actual := by
        rw [hcoh, hc]
      rw [createOrUpdate_diff_found pfx cache client host wes actual actual hc hm hcl]
      show (getByName
        (putByName client (overwriteMesh actual (desiredServiceEntry pfx host wes)))
        (infer.ServiceEntryName pfx host)).map meshFields = _
      have hn : (overwriteMesh actual (desiredServiceEntry pfx host wes)).name =
          infer.ServiceEntryName pfx host := by
        rw [show (overwriteMesh actual (desiredServiceEntry pfx host wes)).name =
          actual.name from rfl]
        exact getByName_eq_some_name _ _ _ hcl
      rw [getByName_putByName, if_pos hn]
      rfl

/-- The pass leaves lookups of names outside its snapshot untouched. -/
theorem pass_untouched (pfx : String) (cache : List ServiceEntry) :
    ∀ (store : List (String × List v1alpha3.WorkloadEntry))
      (client : List ServiceEntry) (n : String),
      (∀ hw ∈ store, ¬infer.ServiceEntryName pfx hw.1 = n) →
      getByName (createOrUpdatePass pfx cache store client).2 n = getByName client n := by
  intro store
  induction store with
  | nil => intro client n _; rfl
  | cons hw0 rest ih =>
    intro client n h
    rcases hw0 with ⟨host, wes⟩
    have hstep : (createOrUpdatePass pfx cache ((host, wes) :: rest) client).2 =
        (createOrUpdatePass pfx cache rest
          (applyCalls client (createOrUpdate pfx cache client host wes))).2 := rfl
    rw [hstep, ih _ _ (fun hw2 hm => h hw2 (List.mem_cons_of_mem _ hm))]
    exact getByName_applyCalls_ne _ _ _ (fun c hc => by
      rw [createOrUpdate_callNames pfx cache client host wes c hc]
      exact h (host, wes) (List.mem_cons_self _ _))

/-- After a whole pass started from a client that agreed with the cache on
every snapshot name, every host of the snapshot (its hosts distinct) has a
client object carrying exactly the desired mesh fields. -/
theorem pass_post (pfx : String) (cache : List ServiceEntry) :
    ∀ (store : List (String × List v1alpha3.WorkloadEntry)) (client : List ServiceEntry),
      (store.map Prod.fst).Nodup →
      (∀ hw ∈ store, getByName client (infer.ServiceEntryName pfx hw.1) =
        getByName cache (infer.ServiceEntryName pfx hw.1)) →
      ∀ hw ∈ store,
        (getByName (createOrUpdatePass pfx cache store client).2
            (infer.ServiceEntryName pfx hw.1)).map meshFields =
          some (meshFields (desiredServiceEntry pfx hw.1 hw.2)) := by
  intro store
  induction store with
  | nil => intro client _ _ hw hmem; cases hmem
  | cons hw0 rest ih =>
    intro client hnd hcoh hw hmem
    rcases hw0 with ⟨host, wes⟩
    rw [List.map_cons] at hnd
    have hndr : (rest.map Prod.fst).Nodup := hnd.of_cons
    have hhost : host ∉ rest.map Prod.fst := (List.nodup_cons.mp hnd).1
    have hstep : (createOrUpdatePass pfx cache ((host, wes) :: rest) client).2 =
        (createOrUpdatePass pfx cache rest
          (applyCalls client (createOrUpdate pfx cache client host wes))).2 := rfl
    rw [hstep]
    rcases List.mem_cons.mp hmem with rfl | hmem2
    · have huntouched : ∀ hw2 ∈ rest,
          ¬infer.ServiceEntryName pfx hw2.1 = infer.ServiceEntryName pfx host := by
        intro hw2 hm2 heq
        refine hhost ?_
        have h12 : hw2.1 = host := serviceEntryName_inj pfx _ _ heq
        rw [← h12]
        exact List.mem_map_of_mem Prod.fst hm2
      rw [pass_untouched pfx cache rest _ _ huntouched]
      exact createOrUpdate_post pfx cache client host wes
        (hcoh (host, wes) (List.mem_cons_self _ _))
    · refine ih _ hndr ?_ hw hmem2
      intro hw2 hm2
      have hne : ¬infer.ServiceEntryName pfx host = infer.ServiceEntryName pfx hw2.1 := by
        intro heq
        refine hhost ?_
        have h12 : host = hw2.1 := serviceEntryName_inj pfx _ _ heq
        rw [h12]
        exact List.mem_map_of_mem Prod.fst hm2
      rw [getByName_applyCalls_ne _ _ _ (fun c hc => by
        rw [createOrUpdate_callNames pfx cache client host wes c hc]
        exact hne)]
      exact hcoh hw2 (List.mem_cons_of_mem _ hm2)

/-- A pass whose cache and client both already carry the desired mesh
fields for every snapshot host issues no call at all. -/
theorem pass_noop (pfx : String) :
    ∀ (store : List (String × List v1alpha3.WorkloadEntry)) (client : List ServiceEntry),
      (∀ hw ∈ store, (getByName client (infer.ServiceEntryName pfx hw.1)).map meshFields =
        some (meshFields (desiredServiceEntry pfx hw.1 hw.2))) →
      createOrUpdatePass pfx client store client = ([], client) := by
  intro store
  induction store with
  | nil => intro client _; rfl
  | cons hw0 rest ih =>
    intro client h
    rcases hw0 with ⟨host, wes⟩
    have hhead := h (host, wes) (List.mem_cons_self _ _)
    cases hg : getByName client (infer.ServiceEntryName pfx host) with
    | none => rw [hg] at hhead; simp at hhead
    | some a =>
      rw [hg] at hhead
      have hm : meshFields a = meshFields (desiredServiceEntry pfx host wes) := by
        simpa using hhead
      have hcalls : createOrUpdate pfx client client host wes = [] :=
        createOrUpdate_equal pfx client client host wes a hg hm
      have hstep : createOrUpdatePass pfx client ((host, wes) :: rest) client =
          (createOrUpdate pfx client client host wes ++
            (createOrUpdatePass pfx client rest
              (applyCalls client (createOrUpdate pfx client client host wes))).1,
           (createOrUpdatePass pfx client rest
              (applyCalls client (createOrUpdate pfx client client host wes))).2) := rfl
      rw [hstep, hcalls]
      show (([] : List ClientCall) ++ (createOrUpdatePass pfx client rest client).1,
        (createOrUpdatePass pfx client rest client).2) = ([], client)
      rw [ih _ (fun hw2 hm2 => h hw2 (List.mem_cons_of_mem _ hm2))]
      rfl

/-- C5 (amended): starting from a cache that agrees with the client object
state, with the Store snapshot keyed by distinct hosts, a second
create-or-update pass over the unchanged snapshot — its cache reflecting
the calls of the first pass — issues zero additional Create and zero
additional Update calls. -/
theorem c5_idempotent_second_pass (pfx : String) (l0 : List ServiceEntry)
    (store : List (String × List v1alpha3.WorkloadEntry))
    (hnd : (store.map Prod.fst).Nodup) :
    countCreate (createOrUpdatePass pfx (createOrUpdatePass pfx l0 store l0).2 store
        (createOrUpdatePass pfx l0 store l0).2).1 = 0 ∧
    countUpdate (createOrUpdatePass pfx (createOrUpdatePass pfx l0 store l0).2 store
        (createOrUpdatePass pfx l0 store l0).2).1 = 0 := by
  have hpost := pass_post pfx l0 store l0 hnd (fun hw _ => rfl)
  have hnoop := pass_noop pfx store (createOrUpdatePass pfx l0 store l0).2 hpost
  rw [hnoop]
  exact ⟨rfl, rfl⟩

/-- C5 witness: the idempotence theorem at a concrete one-host snapshot
started from an empty coherent state. -/
theorem c5_idempotent_second_pass_witness :
    countCreate (createOrUpdatePass "cloudmap-"
        (createOrUpdatePass "cloudmap-" [] [("tetrate.io", c1Wes)] []).2
        [("tetrate.io", c1Wes)]
        (createOrUpdatePass "cloudmap-" [] [("tetrate.io", c1Wes)] []).2).1 = 0 ∧
    countUpdate (createOrUpdatePass "cloudmap-"
        (createOrUpdatePass "cloudmap-" [] [("tetrate.io", c1Wes)] []).2
        [("tetrate.io", c1Wes)]
        (createOrUpdatePass "cloudmap-" [] [("tetrate.io", c1Wes)] []).2).1 = 0 :=
  c5_idempotent_second_pass "cloudmap-" [] [("tetrate.io", c1Wes)] (by decide)

/-- C5 counterexample: with a stale cache holding a mesh-equal object that
the client does not hold, the first pass is a no-op, so the second pass —
its cache now reflecting the true client state — issues one Create even
though the Store contents never changed. -/
theorem c5_counterexample :
    countCreate (createOrUpdatePass "cloudmap-"
        (createOrUpdatePass "cloudmap-"
          [desiredServiceEntry "cloudmap-" "tetrate.io" c1Wes]
          [("tetrate.io", c1Wes)] []).2
        [("tetrate.io", c1Wes)]
        (createOrUpdatePass "cloudmap-"
          [desiredServiceEntry "cloudmap-" "tetrate.io" c1Wes]
          [("tetrate.io", c1Wes)] []).2).1 = 1 := by
  decide
